import Mathlib

/-!
Verification of the azimuth/elevation angular-separation script (src/main.py).

The script converts azimuth/elevation pairs to 3D unit vectors
(`azel_to_vec`), computes the great-circle angle between two such vectors
(`angle_between`, a clamped arccos of the dot product), and cross-checks it
against the spherical law of cosines (`cosJ_trig` / `J_trig`).  The floats
of the script are modelled as real numbers; `np.clip`, `np.radians`,
`np.degrees`, `np.dot` and `np.linalg.norm` are embedded directly.
-/

namespace AeroTrig

noncomputable section

/-- Three-component real vector, modelling a numpy array of three floats. -/
structure Vec3 where
  x : ℝ
  y : ℝ
  z : ℝ

/-- Model of `np.dot` on three-component vectors. -/
def dot (v1 v2 : Vec3) : ℝ := v1.x * v2.x + v1.y * v2.y + v1.z * v2.z

/-- Model of `np.linalg.norm`: the Euclidean norm. -/
def norm (v : Vec3) : ℝ := Real.sqrt (v.x ^ 2 + v.y ^ 2 + v.z ^ 2)

/-- Componentwise division of a vector by a scalar (`v / s` in numpy). -/
def sdiv (v : Vec3) (s : ℝ) : Vec3 := ⟨v.x / s, v.y / s, v.z / s⟩

/-- Model of `np.clip a amin amax`: `min (max a amin) amax`. -/
def clip (a amin amax : ℝ) : ℝ := min (max a amin) amax

/-- Model of `np.radians`: degrees to radians. -/
def radians (d : ℝ) : ℝ := d * Real.pi / 180

/-- Model of `np.degrees`: radians to degrees. -/
def degrees (r : ℝ) : ℝ := r * 180 / Real.pi

/-- `azel_to_vec` from src/main.py lines 16-26: convert azimuth and
elevation (radians) to a 3D vector and divide by its Euclidean norm. -/
def azel_to_vec (az el : ℝ) : Vec3 :=
  let ce := Real.cos el
  let x := ce * Real.cos az
  let y := ce * Real.sin az
  let z := Real.sin el
  let v : Vec3 := ⟨x, y, z⟩
  sdiv v (norm v)

/-- `angle_between` from src/main.py lines 28-32: arccos of the clamped
dot product of two vectors. -/
def angle_between (v1 v2 : Vec3) : ℝ := Real.arccos (clip (dot v1 v2) (-1) 1)

/-- The raw direction vector exactly as the spec words it (section 4.1):
components (cos el * cos az, cos el * sin az, sin el), before any
normalization.  Stated from the spec to compare with `azel_to_vec`. -/
def encoderSpec (az el : ℝ) : Vec3 :=
  ⟨Real.cos el * Real.cos az, Real.cos el * Real.sin az, Real.sin el⟩

/-- Target azimuth in degrees (src/main.py line 35). -/
def AZ_T_deg : ℝ := 40.0

/-- Target elevation in degrees (src/main.py line 35). -/
def EL_T_deg : ℝ := 25.0

/-- Roll-axis azimuth in degrees (src/main.py line 36). -/
def AZ_R_deg : ℝ := 10.0

/-- Roll-axis elevation in degrees (src/main.py line 36). -/
def EL_R_deg : ℝ := 5.0

/-- Target azimuth in radians (src/main.py line 38). -/
def AZ_T : ℝ := radians AZ_T_deg

/-- Target elevation in radians (src/main.py line 38). -/
def EL_T : ℝ := radians EL_T_deg

/-- Roll-axis azimuth in radians (src/main.py line 39). -/
def AZ_R : ℝ := radians AZ_R_deg

/-- Roll-axis elevation in radians (src/main.py line 39). -/
def EL_R : ℝ := radians EL_R_deg

/-- Target unit vector (src/main.py line 42). -/
def vT : Vec3 := azel_to_vec AZ_T EL_T

/-- Roll-axis unit vector (src/main.py line 43). -/
def vR : Vec3 := azel_to_vec AZ_R EL_R

/-- The separation angle J in radians via the vector method
(src/main.py line 46). -/
def J : ℝ := angle_between vT vR

/-- J converted to degrees (src/main.py line 47). -/
def J_deg : ℝ := degrees J

/-- The analytic spherical-law-of-cosines value of cos J
(src/main.py line 51). -/
def cosJ_trig : ℝ :=
  Real.sin EL_T * Real.sin EL_R +
    Real.cos EL_T * Real.cos EL_R * Real.cos (AZ_T - AZ_R)

/-- The analytic separation angle in degrees (src/main.py line 52). -/
def J_trig : ℝ := degrees (Real.arccos (clip cosJ_trig (-1) 1))

/-- The vector-method angle as a function of the four input angles:
encode both directions and apply `angle_between`. -/
def vector_method_angle (azT elT azR elR : ℝ) : ℝ :=
  angle_between (azel_to_vec azT elT) (azel_to_vec azR elR)

/-- The analytic-formula angle as a function of the four input angles,
exactly the computation of src/main.py lines 51-52 (in radians). -/
def analytic_angle (azT elT azR elR : ℝ) : ℝ :=
  Real.arccos (clip
    (Real.sin elT * Real.sin elR +
      Real.cos elT * Real.cos elR * Real.cos (azT - azR)) (-1) 1)

/-! ## Basic lemmas about the encoder -/

lemma norm_raw (az el : ℝ) :
    norm ⟨Real.cos el * Real.cos az, Real.cos el * Real.sin az, Real.sin el⟩ = 1 := by
  unfold norm
  have h1 := Real.sin_sq_add_cos_sq az
  have h2 := Real.sin_sq_add_cos_sq el
  have hsum : (Real.cos el * Real.cos az) ^ 2 + (Real.cos el * Real.sin az) ^ 2
      + Real.sin el ^ 2 = 1 := by nlinarith [h1, h2]
  rw [show (Vec3.mk (Real.cos el * Real.cos az) (Real.cos el * Real.sin az)
    (Real.sin el)).x = Real.cos el * Real.cos az from rfl]
  rw [show (Vec3.mk (Real.cos el * Real.cos az) (Real.cos el * Real.sin az)
    (Real.sin el)).y = Real.cos el * Real.sin az from rfl]
  rw [show (Vec3.mk (Real.cos el * Real.cos az) (Real.cos el * Real.sin az)
    (Real.sin el)).z = Real.sin el from rfl]
  rw [hsum, Real.sqrt_one]

lemma azel_to_vec_eq (az el : ℝ) :
    azel_to_vec az el
      = ⟨Real.cos el * Real.cos az, Real.cos el * Real.sin az, Real.sin el⟩ := by
  show sdiv ⟨Real.cos el * Real.cos az, Real.cos el * Real.sin az, Real.sin el⟩
      (norm ⟨Real.cos el * Real.cos az, Real.cos el * Real.sin az, Real.sin el⟩) = _
  rw [norm_raw]
  simp [sdiv]

lemma norm_azel (az el : ℝ) : norm (azel_to_vec az el) = 1 := by
  rw [azel_to_vec_eq]
  exact norm_raw az el

lemma dot_azel (az1 el1 az2 el2 : ℝ) :
    dot (azel_to_vec az1 el1) (azel_to_vec az2 el2)
      = Real.sin el1 * Real.sin el2 +
          Real.cos el1 * Real.cos el2 * Real.cos (az1 - az2) := by
  rw [azel_to_vec_eq, azel_to_vec_eq]
  unfold dot
  rw [Real.cos_sub]
  ring

lemma methods_eq (azT elT azR elR : ℝ) :
    vector_method_angle azT elT azR elR = analytic_angle azT elT azR elR := by
  unfold vector_method_angle analytic_angle angle_between
  rw [dot_azel]

/-- `arccos` is antitone on all of ℝ. -/
lemma arccos_antitone {a b : ℝ} (h : a ≤ b) : Real.arccos b ≤ Real.arccos a := by
  rw [Real.arccos_eq_pi_div_two_sub_arcsin, Real.arccos_eq_pi_div_two_sub_arcsin]
  have := Real.monotone_arcsin h
  linarith

/-! ## Claim theorems (C1, C3 - C10) -/

/-- C1: for inputs with azimuths in [-π, π] and elevations in [-π/2, π/2],
the vector-method angle and the analytic spherical-law-of-cosines angle
agree to within 1e-6 radians (they are in fact equal). -/
theorem dual_method_agreement (azT elT azR elR : ℝ)
    (_h1 : -Real.pi ≤ azT) (_h2 : azT ≤ Real.pi)
    (_h3 : -(Real.pi / 2) ≤ elT) (_h4 : elT ≤ Real.pi / 2)
    (_h5 : -Real.pi ≤ azR) (_h6 : azR ≤ Real.pi)
    (_h7 : -(Real.pi / 2) ≤ elR) (_h8 : elR ≤ Real.pi / 2) :
    |vector_method_angle azT elT azR elR - analytic_angle azT elT azR elR|
      < 1e-6 := by
  rw [methods_eq, sub_self, abs_zero]
  norm_num

/-- Witness for C1 at the all-zero input. -/
theorem dual_method_agreement_witness :
    |vector_method_angle 0 0 0 0 - analytic_angle 0 0 0 0| < 1e-6 :=
  dual_method_agreement 0 0 0 0
    (by linarith [Real.pi_pos]) (by linarith [Real.pi_pos])
    (by linarith [Real.pi_pos]) (by linarith [Real.pi_pos])
    (by linarith [Real.pi_pos]) (by linarith [Real.pi_pos])
    (by linarith [Real.pi_pos]) (by linarith [Real.pi_pos])

/-- C3: the encoder returns the normalized raw vector, which equals the raw
vector of the spec (cos el * cos az, cos el * sin az, sin el) because the raw
vector already has unit norm; the operation is total. -/
theorem encoder_eq_spec (az el : ℝ) :
    azel_to_vec az el = encoderSpec az el := by
  rw [azel_to_vec_eq]
  rfl

/-- C4: every vector produced by the encoder has Euclidean norm exactly 1,
hence in particular within 1e-9 of 1. -/
theorem encoder_unit_norm (az el : ℝ) :
    norm (azel_to_vec az el) = 1 ∧ |norm (azel_to_vec az el) - 1| ≤ 1e-9 := by
  refine ⟨norm_azel az el, ?_⟩
  rw [norm_azel, sub_self, abs_zero]
  norm_num

/-- C5: the encoder maps the reference inputs to the coordinate axes:
(0,0) to (1,0,0), (π/2,0) to (0,1,0) and (0,π/2) to (0,0,1). -/
theorem encoder_convention :
    azel_to_vec 0 0 = ⟨1, 0, 0⟩ ∧
    azel_to_vec (Real.pi / 2) 0 = ⟨0, 1, 0⟩ ∧
    azel_to_vec 0 (Real.pi / 2) = ⟨0, 0, 1⟩ := by
  refine ⟨?_, ?_, ?_⟩ <;>
    simp [azel_to_vec_eq, Real.cos_pi_div_two, Real.sin_pi_div_two]

/-- C6: the calculator is total and its result always lies in [0, π]; the
clamped dot product always lies in [-1, 1], so arccos is never applied
outside its domain. -/
theorem calculator_range (v1 v2 : Vec3) :
    0 ≤ angle_between v1 v2 ∧ angle_between v1 v2 ≤ Real.pi ∧
    -1 ≤ clip (dot v1 v2) (-1) 1 ∧ clip (dot v1 v2) (-1) 1 ≤ 1 := by
  refine ⟨Real.arccos_nonneg _, Real.arccos_le_pi _, ?_, min_le_right _ _⟩
  exact le_min (le_max_right _ _) (by norm_num)

/-- C7: the encoder sends (az + π, -el) to the antipode of the image of
(az, el), and the calculator on such a pair returns exactly π. -/
theorem antipodal_case (az el : ℝ) :
    azel_to_vec (az + Real.pi) (-el)
      = ⟨-(azel_to_vec az el).x, -(azel_to_vec az el).y, -(azel_to_vec az el).z⟩ ∧
    angle_between (azel_to_vec az el) (azel_to_vec (az + Real.pi) (-el))
      = Real.pi := by
  constructor
  · rw [azel_to_vec_eq, azel_to_vec_eq]
    simp [Real.cos_add, Real.sin_add]
  · unfold angle_between
    rw [dot_azel]
    have hval : Real.sin el * Real.sin (-el) +
        Real.cos el * Real.cos (-el) * Real.cos (az - (az + Real.pi)) = -1 := by
      rw [Real.sin_neg, Real.cos_neg,
        show az - (az + Real.pi) = -Real.pi by ring, Real.cos_neg, Real.cos_pi]
      linear_combination -(Real.sin_sq_add_cos_sq el)
    rw [hval, show clip (-1 : ℝ) (-1) 1 = -1 by unfold clip; norm_num,
      Real.arccos_neg_one]

/-- C8: the calculator is commutative in its two vector arguments. -/
theorem calculator_symm (v1 v2 : Vec3) :
    angle_between v1 v2 = angle_between v2 v1 := by
  have h : dot v1 v2 = dot v2 v1 := by unfold dot; ring
  unfold angle_between
  rw [h]

/-- C9: on a pair of equal unit vectors the calculator returns exactly 0. -/
theorem self_separation (v : Vec3) (h : norm v = 1) :
    angle_between v v = 0 := by
  have hs : v.x ^ 2 + v.y ^ 2 + v.z ^ 2 = 1 := Real.sqrt_eq_one.mp h
  have hd : dot v v = 1 := by unfold dot; linear_combination hs
  unfold angle_between
  rw [hd, show clip (1 : ℝ) (-1) 1 = 1 by unfold clip; norm_num,
    Real.arccos_one]

/-- Witness for C9 at the unit vector (1, 0, 0). -/
theorem self_separation_witness :
    angle_between ⟨1, 0, 0⟩ ⟨1, 0, 0⟩ = 0 :=
  self_separation ⟨1, 0, 0⟩ (by
    unfold norm
    norm_num [Real.sqrt_one])

/-! ## Numeric bounds for the concrete scenario (C2)

The script's fixed inputs are AZ_T = 40°, EL_T = 25°, AZ_R = 10°, EL_R = 5°.
Product-to-sum identities reduce cos J to an expression in cos (π/9) and
√3, which are bounded by the triple-angle cubic and squaring; the two
bracketing cosines are bounded through the fourth-order Taylor estimate
`Real.sin_bound` applied at half the angle. -/

lemma sqrt3_bounds : (1.732050 : ℝ) ≤ Real.sqrt 3 ∧ Real.sqrt 3 ≤ 1.732051 := by
  have hs : Real.sqrt 3 ^ 2 = 3 := Real.sq_sqrt (by norm_num)
  have hn : 0 ≤ Real.sqrt 3 := Real.sqrt_nonneg 3
  constructor <;> nlinarith [hs, hn]

lemma cos_pi_div_nine_bounds :
    (0.939692 : ℝ) ≤ Real.cos (Real.pi / 9) ∧
      Real.cos (Real.pi / 9) ≤ 0.939693 := by
  have h3 : Real.cos (3 * (Real.pi / 9))
      = 4 * Real.cos (Real.pi / 9) ^ 3 - 3 * Real.cos (Real.pi / 9) :=
    Real.cos_three_mul _
  rw [show 3 * (Real.pi / 9) = Real.pi / 3 by ring, Real.cos_pi_div_three] at h3
  have hpi := Real.pi_pos
  have hge : Real.cos (Real.pi / 3) ≤ Real.cos (Real.pi / 9) :=
    Real.cos_le_cos_of_nonneg_of_le_pi (by positivity) (by linarith) (by linarith)
  rw [Real.cos_pi_div_three] at hge
  have hle1 : Real.cos (Real.pi / 9) ≤ 1 := Real.cos_le_one _
  set u := Real.cos (Real.pi / 9) with hu
  have hfac : 0 < 4 * u ^ 2 + 4 * (0.939692 : ℝ) * u + 4 * (0.939692 : ℝ) ^ 2 - 3 := by
    nlinarith [hge]
  have hfac2 : 0 < 4 * u ^ 2 + 4 * (0.939693 : ℝ) * u + 4 * (0.939693 : ℝ) ^ 2 - 3 := by
    nlinarith [hge]
  have hid : (u - 0.939692) * (4 * u ^ 2 + 4 * (0.939692 : ℝ) * u + 4 * (0.939692 : ℝ) ^ 2 - 3)
      = (4 * u ^ 3 - 3 * u) - (4 * (0.939692 : ℝ) ^ 3 - 3 * 0.939692) := by ring
  have hid2 : (u - 0.939693) * (4 * u ^ 2 + 4 * (0.939693 : ℝ) * u + 4 * (0.939693 : ℝ) ^ 2 - 3)
      = (4 * u ^ 3 - 3 * u) - (4 * (0.939693 : ℝ) ^ 3 - 3 * 0.939693) := by ring
  constructor
  · nlinarith [hid, hfac, h3]
  · nlinarith [hid2, hfac2, h3]

/-- Fourth-order Taylor interval for sin on [a, b] ⊆ [0, 1]. -/
lemma sin_interval {a b x : ℝ} (ha : 0 ≤ a) (hax : a ≤ x) (hxb : x ≤ b)
    (hb : b ≤ 1) :
    a - a ^ 3 / 6 - b ^ 4 * (5 / 96) ≤ Real.sin x ∧
      Real.sin x ≤ b - b ^ 3 / 6 + b ^ 4 * (5 / 96) := by
  have hx0 : 0 ≤ x := le_trans ha hax
  have hxabs : |x| ≤ 1 := by
    rw [abs_of_nonneg hx0]
    exact le_trans hxb hb
  have hsb := Real.sin_bound hxabs
  rw [abs_of_nonneg hx0] at hsb
  obtain ⟨hl, hr⟩ := abs_le.mp hsb
  have hx4 : x ^ 4 ≤ b ^ 4 := pow_le_pow_left₀ hx0 hxb 4
  have hx1 : x ≤ 1 := le_trans hxb hb
  have hmono1 : 0 ≤ (x - a) * (6 - (x ^ 2 + a * x + a ^ 2)) := by
    apply mul_nonneg (by linarith)
    nlinarith [hax, hx1, ha, hx0]
  have hmono2 : 0 ≤ (b - x) * (6 - (b ^ 2 + b * x + x ^ 2)) := by
    apply mul_nonneg (by linarith)
    nlinarith [hxb, hb, hx0, hx1]
  constructor
  · nlinarith [hl, hx4, hmono1]
  · nlinarith [hr, hx4, hmono2]

lemma cos_double_sin_sq (y : ℝ) : Real.cos (2 * y) = 1 - 2 * Real.sin y ^ 2 := by
  have h := Real.cos_two_mul' y
  have h2 := Real.sin_sq_add_cos_sq y
  linarith

lemma cos_349_lb : (0.8196 : ℝ) ≤ Real.cos (34.9 * Real.pi / 180) := by
  have hax : (34.9 : ℝ) * 3.141592 / 360 ≤ 34.9 * Real.pi / 360 := by
    have := Real.pi_gt_d6; linarith
  have hxb : (34.9 : ℝ) * Real.pi / 360 ≤ 34.9 * 3.141593 / 360 := by
    have := Real.pi_lt_d6; linarith
  have h := sin_interval (by norm_num) hax hxb (by norm_num)
  have hs_lo : (0.29940 : ℝ) ≤ Real.sin (34.9 * Real.pi / 360) :=
    le_trans (by norm_num) h.1
  have hs_hi : Real.sin (34.9 * Real.pi / 360) ≤ 0.30030 :=
    le_trans h.2 (by norm_num)
  rw [show (34.9 : ℝ) * Real.pi / 180 = 2 * (34.9 * Real.pi / 360) by ring,
    cos_double_sin_sq]
  nlinarith [hs_lo, hs_hi]

lemma cos_352_ub : Real.cos (35.2 * Real.pi / 180) ≤ 0.81785 := by
  have hax : (35.2 : ℝ) * 3.141592 / 360 ≤ 35.2 * Real.pi / 360 := by
    have := Real.pi_gt_d6; linarith
  have hxb : (35.2 : ℝ) * Real.pi / 360 ≤ 35.2 * 3.141593 / 360 := by
    have := Real.pi_lt_d6; linarith
  have h := sin_interval (by norm_num) hax hxb (by norm_num)
  have hs_lo : (0.30188 : ℝ) ≤ Real.sin (35.2 * Real.pi / 360) :=
    le_trans (by norm_num) h.1
  have hs_hi : Real.sin (35.2 * Real.pi / 360) ≤ 0.30282 :=
    le_trans h.2 (by norm_num)
  rw [show (35.2 : ℝ) * Real.pi / 180 = 2 * (35.2 * Real.pi / 360) by ring,
    cos_double_sin_sq]
  nlinarith [hs_lo, hs_hi]

lemma EL_T_eq : EL_T = 25 * Real.pi / 180 := by
  unfold EL_T EL_T_deg radians; norm_num

lemma EL_R_eq : EL_R = 5 * Real.pi / 180 := by
  unfold EL_R EL_R_deg radians; norm_num

lemma AZ_T_eq : AZ_T = 40 * Real.pi / 180 := by
  unfold AZ_T AZ_T_deg radians; norm_num

lemma AZ_R_eq : AZ_R = 10 * Real.pi / 180 := by
  unfold AZ_R AZ_R_deg radians; norm_num

/-- Product-to-sum reduction of the analytic cosine to cos (π/9) and √3. -/
lemma cosJ_trig_eq :
    cosJ_trig = (Real.cos (Real.pi / 9) - Real.sqrt 3 / 2
      + Real.cos (Real.pi / 9) * (Real.sqrt 3 / 2) + (Real.sqrt 3 / 2) ^ 2) / 2 := by
  unfold cosJ_trig
  rw [EL_T_eq, EL_R_eq, AZ_T_eq, AZ_R_eq]
  have hs : Real.sin (25 * Real.pi / 180) * Real.sin (5 * Real.pi / 180)
      = (Real.cos (25 * Real.pi / 180 - 5 * Real.pi / 180)
          - Real.cos (25 * Real.pi / 180 + 5 * Real.pi / 180)) / 2 := by
    rw [Real.cos_sub, Real.cos_add]; ring
  have hc : Real.cos (25 * Real.pi / 180) * Real.cos (5 * Real.pi / 180)
      = (Real.cos (25 * Real.pi / 180 - 5 * Real.pi / 180)
          + Real.cos (25 * Real.pi / 180 + 5 * Real.pi / 180)) / 2 := by
    rw [Real.cos_sub, Real.cos_add]; ring
  rw [hs, hc,
    show (25 : ℝ) * Real.pi / 180 - 5 * Real.pi / 180 = Real.pi / 9 by ring,
    show (25 : ℝ) * Real.pi / 180 + 5 * Real.pi / 180 = Real.pi / 6 by ring,
    show (40 : ℝ) * Real.pi / 180 - 10 * Real.pi / 180 = Real.pi / 6 by ring,
    Real.cos_pi_div_six]
  ring

lemma cosJ_trig_bounds : (0.81873 : ℝ) ≤ cosJ_trig ∧ cosJ_trig ≤ 0.81874 := by
  obtain ⟨hu1, hu2⟩ := cos_pi_div_nine_bounds
  obtain ⟨hv1, hv2⟩ := sqrt3_bounds
  have hs : Real.sqrt 3 ^ 2 = 3 := Real.sq_sqrt (by norm_num)
  rw [cosJ_trig_eq]
  constructor <;> nlinarith [hu1, hu2, hv1, hv2, hs]

lemma clip_cosJ : clip cosJ_trig (-1) 1 = cosJ_trig := by
  obtain ⟨h1, h2⟩ := cosJ_trig_bounds
  unfold clip
  rw [max_eq_left (by linarith), min_eq_left (by linarith)]

lemma J_eq_arccos : J = Real.arccos cosJ_trig := by
  unfold J angle_between vT vR
  rw [dot_azel]
  show Real.arccos (clip cosJ_trig (-1) 1) = _
  rw [clip_cosJ]

lemma J_trig_eq_J_deg : J_trig = J_deg := by
  unfold J_trig J_deg
  rw [clip_cosJ, J_eq_arccos]

lemma J_deg_bounds : (34.9 : ℝ) ≤ J_deg ∧ J_deg ≤ 35.2 := by
  have hpi := Real.pi_pos
  have hlb : 34.9 * Real.pi / 180 ≤ J := by
    rw [J_eq_arccos]
    have hc : cosJ_trig ≤ Real.cos (34.9 * Real.pi / 180) := by
      have h1 := cos_349_lb
      have h2 := cosJ_trig_bounds.2
      linarith
    have h := arccos_antitone hc
    rwa [Real.arccos_cos (by positivity) (by linarith)] at h
  have hub : J ≤ 35.2 * Real.pi / 180 := by
    rw [J_eq_arccos]
    have hc : Real.cos (35.2 * Real.pi / 180) ≤ cosJ_trig := by
      have h1 := cos_352_ub
      have h2 := cosJ_trig_bounds.1
      linarith
    have h := arccos_antitone hc
    rwa [Real.arccos_cos (by positivity) (by linarith)] at h
  constructor
  · unfold J_deg degrees
    rw [le_div_iff₀ hpi]
    linarith
  · unfold J_deg degrees
    rw [div_le_iff₀ hpi]
    linarith

/-- C2 counterexample: at the script's fixed inputs both the vector-method
angle and the analytic angle exceed 31.5°, so neither is ≈ 31.4°-31.5° as
the claim states (both are ≈ 35.04°). -/
theorem concrete_scenario_counterexample : (31.5 : ℝ) < J_deg ∧ (31.5 : ℝ) < J_trig := by
  have h := J_deg_bounds
  rw [J_trig_eq_J_deg]
  constructor <;> linarith [h.1]

/-- C2 (amended): at the fixed inputs AZ_T = 40°, EL_T = 25°, AZ_R = 10°,
EL_R = 5°, the vector-method and analytic separation angles both lie in
[34.9°, 35.2°] (the true value is ≈ 35.04°), and the two methods agree to
within 1e-6 radians (they are equal). -/
theorem concrete_scenario_amended :
    ((34.9 : ℝ) ≤ J_deg ∧ J_deg ≤ 35.2) ∧
      ((34.9 : ℝ) ≤ J_trig ∧ J_trig ≤ 35.2) ∧
      |J - Real.arccos (clip cosJ_trig (-1) 1)| < 1e-6 := by
  have h := J_deg_bounds
  refine ⟨h, ?_, ?_⟩
  · rw [J_trig_eq_J_deg]
    exact h
  · rw [clip_cosJ, ← J_eq_arccos, sub_self, abs_zero]
    norm_num

/-- C10: the encoder is 2π-periodic in azimuth. -/
theorem azimuth_periodic (az el : ℝ) :
    azel_to_vec (az + 2 * Real.pi) el = azel_to_vec az el := by
  rw [azel_to_vec_eq, azel_to_vec_eq, Real.cos_add_two_pi, Real.sin_add_two_pi]

end

end AeroTrig
